import Mathlib

/-!
Verification of the resilience and query-safety core of an Azure DevOps
MCP bridge: error taxonomy (`errors.py`), retry wrapper (`decorators.py`),
validation layer (`validation.py`), TTL cache (`cache.py`) and the
multi-tenant service registry (`service_manager.py`), shallowly embedded
in Lean 4.
-/

deriving instance DecidableEq for Except

namespace ADOBridge

/-! ## Error taxonomy — `src/errors.py`

Each `AzureDevOpsError` subclass is represented by a constructor of
`ADOErrorClass`; the generic base class (raised for unrecognized status
codes) is `base`.  An exception instance is an `ADOError` record carrying
the class, the stored `status_code` and (for rate limiting) `retry_after`.
-/

inductive ADOErrorClass where
  | badRequest
  | authentication
  | permissionDenied
  | workItemNotFound
  | adoTimeout
  | conflict
  | queryTooLarge
  | rateLimit
  | transient
  | base
deriving DecidableEq

structure ADOError where
  cls : ADOErrorClass
  status_code : Option Nat
  retry_after : Option Nat
deriving DecidableEq

/-- `map_status_code_to_error` from `src/errors.py` (lines 298-337): the
elif chain mapping an HTTP status code to an exception class.  Each
subclass constructor stores the status code it was built with; the
final `else` branch builds the generic base error carrying the raw code. -/
def map_status_code_to_error (status_code : Nat) (retry_after : Option Nat) : ADOError :=
  if status_code = 400 then { cls := ADOErrorClass.badRequest, status_code := some 400, retry_after := none }
  else if status_code = 401 then { cls := ADOErrorClass.authentication, status_code := some 401, retry_after := none }
  else if status_code = 403 then { cls := ADOErrorClass.permissionDenied, status_code := some 403, retry_after := none }
  else if status_code = 404 then { cls := ADOErrorClass.workItemNotFound, status_code := some 404, retry_after := none }
  else if status_code = 408 then { cls := ADOErrorClass.adoTimeout, status_code := some 408, retry_after := none }
  else if status_code = 409 then { cls := ADOErrorClass.conflict, status_code := some 409, retry_after := none }
  else if status_code = 413 then { cls := ADOErrorClass.queryTooLarge, status_code := some 413, retry_after := none }
  else if status_code = 429 then { cls := ADOErrorClass.rateLimit, status_code := some 429, retry_after := retry_after }
  else if status_code = 500 ∨ status_code = 502 ∨ status_code = 503 ∨ status_code = 504 then
    { cls := ADOErrorClass.transient, status_code := some status_code, retry_after := none }
  else
    { cls := ADOErrorClass.base, status_code := some status_code, retry_after := none }

/-! ## Retry wrapper — `src/decorators.py`

`retry_on_transient_error` (lines 110-185) loops `attempt` over
`range(max_retries + 1)`.  A `RateLimitError` or `TransientError` is
retried while attempts remain; any other `AzureDevOpsError`, and any
exception outside the taxonomy, is re-raised immediately.

The wrapped async callable is modelled as a function from the 0-based
invocation index to its outcome (`Except PyError V`).  `retryGo` recurses
on the number of remaining retries (`max_retries - attempt`) and returns
the final outcome together with the total number of invocations.
-/

/-- An exception reaching the retry wrapper: either a classified
`AzureDevOpsError` or an exception outside the taxonomy. -/
inductive PyError where
  | ado (e : ADOError)
  | other
deriving DecidableEq

/-- The retry wrapper's `except (RateLimitError, TransientError)` clause:
an exception is caught for retry exactly when it is an instance of one of
those two classes. -/
def isRetryableErr (e : PyError) : Bool :=
  match e with
  | PyError.ado a =>
    match a.cls with
    | ADOErrorClass.rateLimit => true
    | ADOErrorClass.transient => true
    | _ => false
  | PyError.other => false

/-- The retry loop of `retry_on_transient_error.wrapper`: `remaining`
counts the retries still allowed (`max_retries - attempt`), `i` is the
0-based invocation index.  On success return the value; on a retryable
error with retries remaining recurse; otherwise re-raise.  The second
component of the result is the total invocation count. -/
def retryGo {V : Type} (f : Nat → Except PyError V) : Nat → Nat → Except PyError V × Nat
  | 0, i =>
    match f i with
    | Except.ok v => (Except.ok v, i + 1)
    | Except.error e => (Except.error e, i + 1)
  | r + 1, i =>
    match f i with
    | Except.ok v => (Except.ok v, i + 1)
    | Except.error e =>
      if isRetryableErr e then retryGo f r (i + 1) else (Except.error e, i + 1)

/-- `retry_on_transient_error(max_retries)` applied to a callable `f`:
run the loop starting at attempt 0 with `max_retries` retries remaining. -/
def retry_on_transient_error {V : Type} (max_retries : Nat) (f : Nat → Except PyError V) :
    Except PyError V × Nat :=
  retryGo f max_retries 0

/-! ## Query safety layer — `src/validation.py` -/

/-- `ALLOWED_STATES` from `src/validation.py` (lines 18-47). -/
def ALLOWED_STATES : List String :=
  ["New", "Active", "Resolved", "Closed", "Done", "Removed",
   "In Progress", "Committed", "In Review", "Completed",
   "Proposed", "Approved", "Analysis", "Design", "Development", "Testing", "Verified",
   "Ready", "To Do", "In Planning", "Cut"]

/-- Failure raised by `StateValidator.validate`: either the empty-state
message or the invalid-state message enumerating the allowed values. -/
inductive StateValidationError where
  | emptyState
  | invalidState (given : String) (allowed : List String)
deriving DecidableEq

/-- `StateValidator.validate` from `src/validation.py` (lines 194-220):
reject the empty string, then test exact membership (`state not in
ALLOWED_STATES`) and raise an error enumerating the allowed states on a
miss; otherwise return the state unchanged. -/
def StateValidator.validate (state : String) : Except StateValidationError String :=
  if state = "" then Except.error StateValidationError.emptyState
  else if ALLOWED_STATES.contains state then Except.ok state
  else Except.error (StateValidationError.invalidState state ALLOWED_STATES)

/-- `validate_state` from `src/validation.py` (lines 507-509):
`StateValidator.validate(state) if state else None`, where a `None` or
empty-string argument short-circuits to `None`. -/
def validate_state (state : Option String) : Except StateValidationError (Option String) :=
  match state with
  | none => Except.ok none
  | some s =>
    if s = "" then Except.ok none
    else
      match StateValidator.validate s with
      | Except.ok r => Except.ok (some r)
      | Except.error e => Except.error e

/-- Contiguous-sublist search over character lists. -/
def containsChars (pat : List Char) : List Char → Bool
  | [] => pat.isEmpty
  | c :: rest => List.isPrefixOf pat (c :: rest) || containsChars pat rest

/-- Python `s.upper()` (ASCII fragment), character by character. -/
def pyUpper (s : String) : String :=
  String.mk (s.data.map Char.toUpper)

/-- Python's case-insensitive containment test `pat in query.upper()` is a
substring search; modelled on the character list with ASCII upper-casing. -/
def containsSub (s pat : String) : Bool :=
  containsChars pat.data (pyUpper s).data

/-- `WiqlValidator._check_balanced_brackets` from `src/validation.py`
(lines 368-387): a running counter over the characters, incremented on
each opening square bracket and decremented on each closing one, must
never go negative and must end at zero. -/
def check_balanced_brackets (cs : List Char) (count : Int) : Bool :=
  match cs with
  | [] => count = 0
  | c :: rest =>
    let count1 : Int := if c = '[' then count + 1 else if c = ']' then count - 1 else count
    if count1 < 0 then false else check_balanced_brackets rest count1

/-- The failure branches of `WiqlValidator.validate`, in source order. -/
inductive WiqlError where
  | emptyQuery
  | tooLong (length : Nat)
  | missingSelect
  | missingFrom
  | invalidFromTarget
  | unbalancedBrackets
deriving DecidableEq

/-- `MAX_QUERY_LENGTH` from `src/validation.py` (line 318). -/
def MAX_QUERY_LENGTH : Nat := 32000

/-- `WiqlValidator.validate` from `src/validation.py` (lines 320-366):
reject the empty query, over-long queries, queries without a SELECT or
FROM substring (case-insensitively), queries mentioning neither
`WorkItems` nor `WorkItemLinks`, and queries with unbalanced square
brackets; otherwise return the query unchanged. -/
def WiqlValidator.validate (query : String) : Except WiqlError String :=
  if query = "" then Except.error WiqlError.emptyQuery
  else if MAX_QUERY_LENGTH < query.length then Except.error (WiqlError.tooLong query.length)
  else if ¬ containsSub query "SELECT" then Except.error WiqlError.missingSelect
  else if ¬ containsSub query "FROM" then Except.error WiqlError.missingFrom
  else if ¬ (containsSub query "WORKITEMS" ∨ containsSub query "WORKITEMLINKS") then
    Except.error WiqlError.invalidFromTarget
  else if ¬ check_balanced_brackets query.data 0 then Except.error WiqlError.unbalancedBrackets
  else Except.ok query

/-! ## TTL cache — `src/cache.py`

The Python `dict` backing the cache is modelled as an insertion-ordered
association list with unique keys: insertion of a new key appends,
overwriting keeps the key's position, deletion removes the key's pair.
Wall-clock time (`datetime.now()`) is passed explicitly as a `Nat`
parameter `now`.  A stored Python value is an `Option W` so that the
stored `None` of claim C10 is representable (`Option.none`).
-/

/-- Python `k.startswith(pre)`. -/
def pyStartsWith (k pre : String) : Bool :=
  List.isPrefixOf pre.data k.data

/-- Python `d.get(key)` on an insertion-ordered dict. -/
def lookupKey {α : Type} (key : String) : List (String × α) → Option α
  | [] => none
  | (k, v) :: rest => if k = key then some v else lookupKey key rest

/-- Python `d[key] = v` on an insertion-ordered dict: overwrite in place,
or append a new pair. -/
def insertKey {α : Type} (key : String) (v : α) : List (String × α) → List (String × α)
  | [] => [(key, v)]
  | (k, w) :: rest => if k = key then (k, v) :: rest else (k, w) :: insertKey key v rest

/-- Python `del d[key]` on an insertion-ordered dict. -/
def removeKey {α : Type} (key : String) : List (String × α) → List (String × α)
  | [] => []
  | (k, w) :: rest => if k = key then rest else (k, w) :: removeKey key rest

/-- `CacheEntry` from `src/cache.py` (lines 18-52): the stored data, the
creation timestamp, the expiry `created_at + ttl_seconds`, and a per-entry
hit counter. -/
structure CacheEntry (W : Type) where
  data : Option W
  created_at : Nat
  expiry : Nat
  hit_count : Nat
deriving DecidableEq

/-- `CacheEntry.__init__`: `expiry = created_at + ttl_seconds`. -/
def CacheEntry.mk_at {W : Type} (data : Option W) (ttl_seconds : Nat) (now : Nat) : CacheEntry W :=
  { data := data, created_at := now, expiry := now + ttl_seconds, hit_count := 0 }

/-- `CacheEntry.is_expired`: `datetime.now() >= self.expiry`. -/
def CacheEntry.is_expired {W : Type} (e : CacheEntry W) (now : Nat) : Bool :=
  e.expiry ≤ now

/-- `Cache` from `src/cache.py` (lines 55-284): the entry map plus the
aggregate statistics counters. -/
structure Cache (W : Type) where
  default_ttl : Nat
  max_size : Nat
  entries : List (String × CacheEntry W)
  hits : Nat
  misses : Nat
  evictions : Nat
  expirations : Nat
deriving DecidableEq

/-- `Cache.get` (lines 138-168): a missing key counts a miss; an expired
entry is deleted and counts both an expiration and a miss; otherwise the
entry's hit counter and the cache's hit counter are bumped and the stored
data is returned.  Returns the Python return value (`None` encoded as
`Option.none`) together with the updated cache. -/
def Cache.get {W : Type} (c : Cache W) (key : String) (now : Nat) : Option W × Cache W :=
  match lookupKey key c.entries with
  | none => (none, { c with misses := c.misses + 1 })
  | some entry =>
    if entry.is_expired now then
      (none, { c with
                entries := removeKey key c.entries,
                expirations := c.expirations + 1,
                misses := c.misses + 1 })
    else
      (entry.data, { c with
                      entries := insertKey key { entry with hit_count := entry.hit_count + 1 } c.entries,
                      hits := c.hits + 1 })

/-- The `min(keys, key=created_at)` fold of `Cache._evict_oldest`: walk
the remaining keys keeping the first strictly-smallest `created_at`. -/
def oldestKeyAux {W : Type} (best : String) (bestAt : Nat) : List (String × CacheEntry W) → String
  | [] => best
  | (k, e) :: rest =>
    if e.created_at < bestAt then oldestKeyAux k e.created_at rest else oldestKeyAux best bestAt rest

/-- `Cache._evict_oldest` (lines 193-206): on a non-empty map, delete the
key with the smallest `created_at` (first wins ties, as Python's `min`
over the dict's iteration order) and count an eviction. -/
def Cache.evict_oldest {W : Type} (c : Cache W) : Cache W :=
  match c.entries with
  | [] => c
  | (k, e) :: rest =>
    let oldest := oldestKeyAux k e.created_at rest
    { c with entries := removeKey oldest c.entries, evictions := c.evictions + 1 }

/-- `Cache.set` (lines 170-191): when the map is at `max_size` and the key
is new, evict the oldest entry first; then insert a fresh `CacheEntry`
with the given TTL (defaulting to `default_ttl`). -/
def Cache.set {W : Type} (c : Cache W) (key : String) (value : Option W)
    (ttl_seconds : Option Nat) (now : Nat) : Cache W :=
  let c1 :=
    if c.max_size ≤ c.entries.length ∧ (lookupKey key c.entries).isNone then
      Cache.evict_oldest c
    else c
  let ttl := ttl_seconds.getD c.default_ttl
  { c1 with entries := insertKey key (CacheEntry.mk_at value ttl now) c1.entries }

/-- `Cache.invalidate_prefix` (lines 224-248): collect the keys starting
with the prefix, delete each of them, and return how many were deleted. -/
def Cache.invalidate_prefix {W : Type} (c : Cache W) (pre : String) : Nat × Cache W :=
  let keys_to_remove := (c.entries.map Prod.fst).filter (fun k => pyStartsWith k pre)
  let entries1 := keys_to_remove.foldl (fun es k => removeKey k es) c.entries
  (keys_to_remove.length, { c with entries := entries1 })

/-- The `cached` decorator's wrapper body from `src/cache.py` (lines
362-388): probe the cache; a non-`None` cached value is returned without
invoking the wrapped function; otherwise the function runs (its result is
the parameter `fres`; the returned `Bool` records that it was invoked)
and the result is stored.  Returns (value, wrapped-function-invoked,
final cache). -/
def cachedWrapper {W : Type} (c : Cache W) (key : String) (fres : Option W)
    (ttl_seconds : Option Nat) (now : Nat) : Option W × Bool × Cache W :=
  match Cache.get c key now with
  | (some x, c1) => (some x, false, c1)
  | (none, c1) => (fres, true, Cache.set c1 key fres ttl_seconds now)

/-! ## Multi-tenant service registry — `src/service_manager.py`

A service instance is identified by its constructor arguments: the kind
string, the project it is bound to, and the cache namespace computed by
its `__init__` (`SprintService`: `f"sprints:{project}"`,
`WorkItemService`: `f"workitems:{project}"`, both from
`src/src/services/*.py`).  The opaque auth collaborator is irrelevant to
the claims and omitted.
-/

/-- Python `p.strip()`: drop whitespace from both ends. -/
def pyStrip (s : String) : String :=
  String.mk
    (List.reverse (List.dropWhile Char.isWhitespace
      (List.reverse (List.dropWhile Char.isWhitespace s.data))))

structure Service where
  kind : String
  project : String
  cache_namespace : String
deriving DecidableEq

/-- `SprintService.__init__`: namespace `"sprints:" ++ project`. -/
def mkSprintService (project : String) : Service :=
  { kind := "sprints", project := project, cache_namespace := "sprints:" ++ project }

/-- `WorkItemService.__init__`: namespace `"workitems:" ++ project`. -/
def mkWorkItemService (project : String) : Service :=
  { kind := "workitems", project := project, cache_namespace := "workitems:" ++ project }

/-- `ServiceManager` state from `src/service_manager.py` (lines 37-60):
the two per-kind memoization maps plus the statistics counters. -/
structure ServiceManager where
  default_project : Option String
  sprint_services : List (String × Service)
  workitem_services : List (String × Service)
  service_creation_count : Nat
  cache_hit_count : Nat
deriving DecidableEq

inductive ResolveError where
  | projectRequired
deriving DecidableEq

/-- The fallback half of `ServiceManager._resolve_project`: a truthy
(non-empty) configured default wins, else the validation failure. -/
def resolveDefault (m : ServiceManager) : Except ResolveError String :=
  match m.default_project with
  | some d => if d = "" then Except.error ResolveError.projectRequired else Except.ok d
  | none => Except.error ResolveError.projectRequired

/-- `ServiceManager._resolve_project` (lines 116-139): a truthy explicit
argument is stripped and returned; otherwise fall back to the default. -/
def resolve_project (m : ServiceManager) (project : Option String) : Except ResolveError String :=
  match project with
  | some p => if p = "" then resolveDefault m else Except.ok (pyStrip p)
  | none => resolveDefault m

/-- `ServiceManager.get_sprint_service` (lines 62-87): resolve the
project; return the memoized instance (counting a cache hit) if present,
else construct, memoize and count a creation. -/
def get_sprint_service (m : ServiceManager) (project : Option String) :
    Except ResolveError (Service × ServiceManager) :=
  match resolve_project m project with
  | Except.error e => Except.error e
  | Except.ok p =>
    match lookupKey p m.sprint_services with
    | some s => Except.ok (s, { m with cache_hit_count := m.cache_hit_count + 1 })
    | none =>
      let s := mkSprintService p
      Except.ok (s, { m with
                       sprint_services := insertKey p s m.sprint_services,
                       service_creation_count := m.service_creation_count + 1 })

/-- `ServiceManager.get_workitem_service` (lines 89-114): same shape as
`get_sprint_service` over the work-item map. -/
def get_workitem_service (m : ServiceManager) (project : Option String) :
    Except ResolveError (Service × ServiceManager) :=
  match resolve_project m project with
  | Except.error e => Except.error e
  | Except.ok p =>
    match lookupKey p m.workitem_services with
    | some s => Except.ok (s, { m with cache_hit_count := m.cache_hit_count + 1 })
    | none =>
      let s := mkWorkItemService p
      Except.ok (s, { m with
                       workitem_services := insertKey p s m.workitem_services,
                       service_creation_count := m.service_creation_count + 1 })

/-- `ServiceManager.clear_project_services` (lines 152-161): drop the
given project's instances from both per-kind maps. -/
def clear_project_services (m : ServiceManager) (project : String) : ServiceManager :=
  { m with
     sprint_services := removeKey project m.sprint_services,
     workitem_services := removeKey project m.workitem_services }

/-! ## Theorems for the claims -/

/-- Claim C1 (code bug in the source): `StateValidator.validate` performs
an exact, case-sensitive membership test, so `validate_state "active"`
raises a `ValidationError` instead of normalizing to `"Active"` as the
claim (and the repository's own test `test_validate_case_insensitive`)
states; the exact-case `"Active"` is accepted unchanged, and the
injection string and other non-members are rejected with an error
enumerating the allowed states. -/
theorem c1_validate_state_case_sensitive :
    (validate_state (some "active")).isOk = false ∧
    StateValidator.validate "active" =
      Except.error (StateValidationError.invalidState "active" ALLOWED_STATES) ∧
    validate_state (some "Active") = Except.ok (some "Active") ∧
    (validate_state (some "Active\x27 OR \x271\x27=\x271")).isOk = false ∧
    StateValidator.validate "Active\x27 OR \x271\x27=\x271" =
      Except.error
        (StateValidationError.invalidState "Active\x27 OR \x271\x27=\x271" ALLOWED_STATES) := by
  decide

/-- Claim C2, counterexample: HTTP 501 lies in the 5xx range but
`map_status_code_to_error` classifies it as the generic (Unknown) error,
not as Transient, and it is not retryable. -/
theorem c2_5xx_counterexample :
    500 ≤ 501 ∧ 501 ≤ 599 ∧
    (map_status_code_to_error 501 none).cls = ADOErrorClass.base ∧
    ¬ (map_status_code_to_error 501 none).cls = ADOErrorClass.transient ∧
    isRetryableErr (PyError.ado (map_status_code_to_error 501 none)) = false := by
  decide

/-- Claim C2 (amended): classification is Transient (retryable) exactly
for the four enumerated codes 500, 502, 503, 504; every code outside the
enumerated taxonomy — including the other 5xx codes — maps to the
generic Unknown classification, which is non-retryable and carries the
raw code. -/
theorem c2_transient_mapping (c : Nat) (ra : Option Nat) :
    ((map_status_code_to_error c ra).cls = ADOErrorClass.transient ↔
       (c = 500 ∨ c = 502 ∨ c = 503 ∨ c = 504)) ∧
    ((map_status_code_to_error c ra).cls = ADOErrorClass.transient →
       isRetryableErr (PyError.ado (map_status_code_to_error c ra)) = true) ∧
    (¬ c ∈ ([400, 401, 403, 404, 408, 409, 413, 429, 500, 502, 503, 504] : List Nat) →
       (map_status_code_to_error c ra).cls = ADOErrorClass.base ∧
       (map_status_code_to_error c ra).status_code = some c ∧
       isRetryableErr (PyError.ado (map_status_code_to_error c ra)) = false) := by
  unfold map_status_code_to_error isRetryableErr
  split_ifs <;> simp_all

/-- Witness for `c2_transient_mapping` at the concrete code 777. -/
theorem c2_transient_mapping_witness :
    (map_status_code_to_error 777 none).cls = ADOErrorClass.base ∧
    (map_status_code_to_error 777 none).status_code = some 777 ∧
    isRetryableErr (PyError.ado (map_status_code_to_error 777 none)) = false :=
  (c2_transient_mapping 777 none).2.2 (by decide)

/-- If `f` fails with retryable errors strictly below invocation `k` and
succeeds at `k`, the retry loop started at attempt `i ≤ k` with at least
`k - i` retries remaining returns the success value after `k + 1`
invocations in total. -/
theorem retryGo_succeeds {V : Type} (f : Nat → Except PyError V) (v : V) (k : Nat)
    (hfail : ∀ j, j < k → ∃ e, f j = Except.error e ∧ isRetryableErr e = true)
    (hok : f k = Except.ok v) :
    ∀ r i, i ≤ k → k ≤ i + r → retryGo f r i = (Except.ok v, k + 1) := by
  intro r
  induction r with
  | zero =>
    intro i h1 h2
    have hik : i = k := by omega
    subst hik
    simp [retryGo, hok]
  | succ r ih =>
    intro i h1 h2
    rcases Nat.eq_or_lt_of_le h1 with hik | hlt
    · subst hik
      simp [retryGo, hok]
    · obtain ⟨e, hfe, hre⟩ := hfail i hlt
      simp only [retryGo, hfe, hre, if_true]
      exact ih (i + 1) (by omega) (by omega)

/-- If `f` fails with a retryable error on every invocation, the retry
loop started at attempt `i` with `r` retries remaining raises the error
of the final attempt after `i + r + 1` invocations. -/
theorem retryGo_all_fail {V : Type} (f : Nat → Except PyError V) (errs : Nat → PyError)
    (hf : ∀ i, f i = Except.error (errs i))
    (hr : ∀ i, isRetryableErr (errs i) = true) :
    ∀ r i, retryGo f r i = ((Except.error (errs (i + r)) : Except PyError V), i + r + 1) := by
  intro r
  induction r with
  | zero =>
    intro i
    simp [retryGo, hf i]
  | succ r ih =>
    intro i
    simp only [retryGo, hf i, hr i, if_true]
    rw [ih (i + 1)]
    have h1 : i + 1 + r = i + (r + 1) := by omega
    rw [h1]

/-- The retry loop starting at attempt `i` performs at least one
invocation: its invocation count is at least `i + 1`. -/
theorem retryGo_count_ge {V : Type} (f : Nat → Except PyError V) :
    ∀ r i, i + 1 ≤ (retryGo f r i).2 := by
  intro r
  induction r with
  | zero =>
    intro i
    unfold retryGo
    match h : f i with
    | Except.ok v => simp [h]
    | Except.error e => simp [h]
  | succ r ih =>
    intro i
    unfold retryGo
    match h : f i with
    | Except.ok v => simp [h]
    | Except.error e =>
      simp only [h]
      by_cases hre : isRetryableErr e = true
      · simp only [hre, if_true]
        have := ih (i + 1)
        omega
      · simp only [Bool.not_eq_true] at hre
        simp [hre]

/-- Claim C3: for every `max_retries = n` and a wrapped callable that
raises retryable classified errors on its first `k` invocations and
succeeds on invocation `k + 1` (0-based index `k`), if `k ≤ n` the
wrapper invokes the callable exactly `k + 1` times and returns the
success value; a callable that raises retryable classified errors on
every invocation is invoked exactly `n + 1` times and the last classified
error is raised. -/
theorem c3_retry_counts (V : Type) (n k : Nat) (v : V) (errs : Nat → PyError) :
    (k ≤ n → (∀ i, i < k → isRetryableErr (errs i) = true) →
       retry_on_transient_error n
           (fun i => if i < k then Except.error (errs i) else Except.ok v) =
         (Except.ok v, k + 1)) ∧
    ((∀ i, isRetryableErr (errs i) = true) →
       retry_on_transient_error n (fun i => Except.error (errs i)) =
         ((Except.error (errs n) : Except PyError V), n + 1)) := by
  constructor
  · intro hkn hret
    unfold retry_on_transient_error
    apply retryGo_succeeds
    · intro j hj
      exact ⟨errs j, by simp [hj], hret j hj⟩
    · simp
    · omega
    · omega
  · intro hret
    unfold retry_on_transient_error
    have h := retryGo_all_fail (V := V) (fun i => Except.error (errs i)) errs
      (fun i => rfl) hret n 0
    simpa using h

/-- Witness for `c3_retry_counts`: a callable that raises a Transient
classification twice then succeeds, wrapped with `max_retries = 3`, is
invoked exactly 3 times and returns the value; one that always raises
Transient under `max_retries = 2` is invoked exactly 3 times and the
error is raised. -/
theorem c3_retry_counts_witness :
    retry_on_transient_error 3
        (fun i => if i < 2 then
            Except.error (PyError.ado
              { cls := ADOErrorClass.transient, status_code := some 503, retry_after := none })
          else Except.ok 7) =
      (Except.ok 7, 3) ∧
    retry_on_transient_error 2
        (fun _ => (Except.error (PyError.ado
            { cls := ADOErrorClass.transient, status_code := some 503, retry_after := none }) :
          Except PyError Nat)) =
      (Except.error (PyError.ado
          { cls := ADOErrorClass.transient, status_code := some 503, retry_after := none }), 3) :=
  ⟨(c3_retry_counts Nat 3 2 7
      (fun _ => PyError.ado
        { cls := ADOErrorClass.transient, status_code := some 503, retry_after := none })).1
      (by decide) (fun i _ => by decide),
   (c3_retry_counts Nat 2 0 0
      (fun _ => PyError.ado
        { cls := ADOErrorClass.transient, status_code := some 503, retry_after := none })).2
      (fun i => by decide)⟩

/-- Claim C4: the wrapper retries exactly the retryable classifications.
A callable whose first invocation raises a non-retryable error (a
non-retryable `AzureDevOpsError` such as NotFound, or any exception
outside the taxonomy) propagates it after exactly one invocation for
every `max_retries`; a first-invocation retryable error with at least one
retry allowed leads to a second invocation. -/
theorem c4_retry_iff_retryable (V : Type) (n : Nat) (f : Nat → Except PyError V) (e : PyError) :
    (f 0 = Except.error e → isRetryableErr e = false →
       retry_on_transient_error n f = (Except.error e, 1)) ∧
    (f 0 = Except.error e → isRetryableErr e = true → 1 ≤ n →
       2 ≤ (retry_on_transient_error n f).2) := by
  constructor
  · intro hf hre
    cases n with
    | zero => simp [retry_on_transient_error, retryGo, hf]
    | succ m => simp [retry_on_transient_error, retryGo, hf, hre]
  · intro hf hre hn
    obtain ⟨m, rfl⟩ : ∃ m, n = m + 1 := ⟨n - 1, by omega⟩
    unfold retry_on_transient_error retryGo
    simp only [hf, hre, if_true]
    exact retryGo_count_ge f m 1

/-- Witness for `c4_retry_iff_retryable`: a NotFound-classified error is
raised after exactly one invocation even with `max_retries = 5`, and a
RateLimited error with `max_retries = 5` leads to at least a second
invocation. -/
theorem c4_retry_iff_retryable_witness :
    retry_on_transient_error 5
        (fun _ => (Except.error (PyError.ado
            { cls := ADOErrorClass.workItemNotFound, status_code := some 404, retry_after := none }) :
          Except PyError Nat)) =
      (Except.error (PyError.ado
          { cls := ADOErrorClass.workItemNotFound, status_code := some 404, retry_after := none }), 1) ∧
    2 ≤ (retry_on_transient_error 5
        (fun _ => (Except.error (PyError.ado
            { cls := ADOErrorClass.rateLimit, status_code := some 429, retry_after := some 1 }) :
          Except PyError Nat))).2 :=
  ⟨(c4_retry_iff_retryable Nat 5
      (fun _ => Except.error (PyError.ado
        { cls := ADOErrorClass.workItemNotFound, status_code := some 404, retry_after := none }))
      (PyError.ado
        { cls := ADOErrorClass.workItemNotFound, status_code := some 404, retry_after := none })).1
      rfl (by decide),
   (c4_retry_iff_retryable Nat 5
      (fun _ => Except.error (PyError.ado
        { cls := ADOErrorClass.rateLimit, status_code := some 429, retry_after := some 1 }))
      (PyError.ado
        { cls := ADOErrorClass.rateLimit, status_code := some 429, retry_after := some 1 })).2
      rfl (by decide) (by decide)⟩

/-- Looking up a key immediately after inserting it yields the inserted
value. -/
theorem lookupKey_insertKey_self {α : Type} (key : String) (v : α)
    (es : List (String × α)) : lookupKey key (insertKey key v es) = some v := by
  induction es with
  | nil => simp [insertKey, lookupKey]
  | cons p rest ih =>
    obtain ⟨pk, pv⟩ := p
    by_cases hp : pk = key
    · subst hp
      simp [insertKey, lookupKey]
    · simp [insertKey, lookupKey, hp, ih]

/-- A key absent from the key list looks up to `none`. -/
theorem lookupKey_not_mem {α : Type} (k : String) (es : List (String × α))
    (h : ¬ k ∈ es.map Prod.fst) : lookupKey k es = none := by
  induction es with
  | nil => rfl
  | cons p rest ih =>
    simp only [List.map_cons, List.mem_cons, not_or] at h
    have hp : ¬ p.1 = k := fun h2 => h.1 h2.symm
    simp only [lookupKey, hp, if_false]
    exact ih h.2

/-- Inserting one key does not change the lookup of another. -/
theorem lookupKey_insertKey_ne {α : Type} (key k2 : String) (v : α)
    (es : List (String × α)) (h : ¬ k2 = key) :
    lookupKey k2 (insertKey key v es) = lookupKey k2 es := by
  have hko : ¬ key = k2 := fun h2 => h h2.symm
  induction es with
  | nil => simp [insertKey, lookupKey, hko]
  | cons p rest ih =>
    obtain ⟨pk, pv⟩ := p
    by_cases hp : pk = key
    · subst hp
      simp [insertKey, lookupKey, hko]
    · simp only [insertKey, hp, if_false, lookupKey]
      by_cases hpk2 : pk = k2
      · simp [hpk2]
      · simp [hpk2, ih]

/-- Deleting one key does not change the lookup of another. -/
theorem lookupKey_removeKey_ne {α : Type} (key k2 : String)
    (es : List (String × α)) (h : ¬ k2 = key) :
    lookupKey k2 (removeKey key es) = lookupKey k2 es := by
  induction es with
  | nil => simp [removeKey]
  | cons p rest ih =>
    obtain ⟨pk, pv⟩ := p
    by_cases hp : pk = key
    · subst hp
      have hko : ¬ pk = k2 := fun h2 => h h2.symm
      simp [removeKey, lookupKey, hko]
    · simp only [removeKey, hp, if_false, lookupKey]
      by_cases hpk2 : pk = k2
      · simp [hpk2]
      · simp [hpk2, ih]

/-- With unique keys, deleting a key removes it entirely. -/
theorem lookupKey_removeKey_self {α : Type} (key : String)
    (es : List (String × α)) (h : (es.map Prod.fst).Nodup) :
    lookupKey key (removeKey key es) = none := by
  induction es with
  | nil => rfl
  | cons p rest ih =>
    obtain ⟨pk, pv⟩ := p
    simp only [List.map_cons, List.nodup_cons] at h
    by_cases hp : pk = key
    · subst hp
      simp only [removeKey, if_pos rfl]
      exact lookupKey_not_mem pk rest h.1
    · simp only [removeKey, hp, if_false, lookupKey]
      exact ih h.2

/-- A key absent from the map stays absent after deleting another key. -/
theorem lookupKey_removeKey_none {α : Type} (key k2 : String)
    (es : List (String × α)) (h : lookupKey k2 es = none) :
    lookupKey k2 (removeKey key es) = none := by
  induction es with
  | nil => rfl
  | cons p rest ih =>
    obtain ⟨pk, pv⟩ := p
    simp only [lookupKey] at h
    by_cases hpk2 : pk = k2
    · simp [hpk2] at h
    · rw [if_neg hpk2] at h
      by_cases hp : pk = key
      · simp only [removeKey, hp, if_pos rfl]
        exact h
      · simp only [removeKey, hp, if_false, lookupKey, hpk2]
        exact ih h

/-- Claim C5: an entry is never returned once `now >= expiry`; after
`set(key, v, ttl := t)` at time `t0`, `get(key)` strictly before
`t0 + t` returns the stored value and counts a hit, while `get(key)` at
or after `t0 + t` removes the entry and increments both the expirations
counter and the misses counter, reporting a miss. -/
theorem c5_ttl_expiry (W : Type) :
    (∀ (c : Cache W) (key : String) (now : Nat) (e : CacheEntry W),
       lookupKey key c.entries = some e → e.expiry ≤ now →
       (Cache.get c key now).1 = none) ∧
    (∀ (c : Cache W) (key : String) (v : Option W) (t t0 now : Nat),
       (now < t0 + t →
          (Cache.get (Cache.set c key v (some t) t0) key now).1 = v ∧
          (Cache.get (Cache.set c key v (some t) t0) key now).2.hits =
            (Cache.set c key v (some t) t0).hits + 1 ∧
          (Cache.get (Cache.set c key v (some t) t0) key now).2.misses =
            (Cache.set c key v (some t) t0).misses) ∧
       (t0 + t ≤ now →
          (Cache.get (Cache.set c key v (some t) t0) key now).1 = none ∧
          (Cache.get (Cache.set c key v (some t) t0) key now).2.entries =
            removeKey key (Cache.set c key v (some t) t0).entries ∧
          (Cache.get (Cache.set c key v (some t) t0) key now).2.expirations =
            (Cache.set c key v (some t) t0).expirations + 1 ∧
          (Cache.get (Cache.set c key v (some t) t0) key now).2.misses =
            (Cache.set c key v (some t) t0).misses + 1)) := by
  constructor
  · intro c key now e he hexp
    simp only [Cache.get, he, CacheEntry.is_expired]
    simp [decide_eq_true hexp]
  · intro c key v t t0 now
    have hlook :
        lookupKey key (Cache.set c key v (some t) t0).entries =
          some (CacheEntry.mk_at v t t0) := by
      simp [Cache.set, lookupKey_insertKey_self]
    constructor
    · intro hlt
      have hcond : (CacheEntry.mk_at v t t0).is_expired now = false := by
        simp only [CacheEntry.is_expired, CacheEntry.mk_at, decide_eq_false_iff_not]
        omega
      simp only [Cache.get, hlook, hcond]
      simp [CacheEntry.mk_at]
    · intro hge
      have hcond : (CacheEntry.mk_at v t t0).is_expired now = true := by
        simp only [CacheEntry.is_expired, CacheEntry.mk_at, decide_eq_true_eq]
        omega
      simp only [Cache.get, hlook, hcond]
      simp

/-- Witness for `c5_ttl_expiry`: setting `"k"` with `ttl = 10` at time 0
in an empty cache, `get` at time 9 returns the value with a hit and `get`
at time 10 misses, removing the entry and counting an expiration. -/
theorem c5_ttl_expiry_witness :
    (Cache.get (Cache.set (⟨300, 10, [], 0, 0, 0, 0⟩ : Cache Nat) "k" (some 5) (some 10) 0) "k" 9).1 =
      some 5 ∧
    (Cache.get (Cache.set (⟨300, 10, [], 0, 0, 0, 0⟩ : Cache Nat) "k" (some 5) (some 10) 0) "k" 10).1 =
      none ∧
    (Cache.get (Cache.set (⟨300, 10, [], 0, 0, 0, 0⟩ : Cache Nat) "k" (some 5) (some 10) 0) "k" 10).2.expirations = 1 ∧
    (Cache.get (Cache.set (⟨300, 10, [], 0, 0, 0, 0⟩ : Cache Nat) "k" (some 5) (some 10) 0) "k" 10).2.misses = 1 := by
  refine ⟨?_, ?_, ?_, ?_⟩
  · exact (((c5_ttl_expiry Nat).2 ⟨300, 10, [], 0, 0, 0, 0⟩ "k" (some 5) 10 0 9).1 (by decide)).1
  · exact (((c5_ttl_expiry Nat).2 ⟨300, 10, [], 0, 0, 0, 0⟩ "k" (some 5) 10 0 10).2 (by decide)).1
  · exact (((c5_ttl_expiry Nat).2 ⟨300, 10, [], 0, 0, 0, 0⟩ "k" (some 5) 10 0 10).2 (by decide)).2.2.1
  · exact (((c5_ttl_expiry Nat).2 ⟨300, 10, [], 0, 0, 0, 0⟩ "k" (some 5) 10 0 10).2 (by decide)).2.2.2

/-- A successful lookup exhibits a member of the association list. -/
theorem lookupKey_some_mem {α : Type} (k : String) (es : List (String × α)) (v : α)
    (h : lookupKey k es = some v) : (k, v) ∈ es := by
  induction es with
  | nil => cases h
  | cons p rest ih =>
    obtain ⟨pk, pv⟩ := p
    by_cases hp : pk = k
    · subst hp
      simp only [lookupKey, if_true, eq_self_iff_true, Option.some.injEq] at h
      subst h
      simp
    · simp only [lookupKey, hp, if_false] at h
      simp [ih h]

/-- `oldestKeyAux` keeps the running best when nothing beats it. -/
theorem oldestKeyAux_of_le {W : Type} (l : List (String × CacheEntry W))
    (best : String) (bestAt : Nat)
    (h : ∀ p ∈ l, bestAt ≤ p.2.created_at) :
    oldestKeyAux best bestAt l = best := by
  induction l generalizing best bestAt with
  | nil => rfl
  | cons q rest ih =>
    obtain ⟨qk, qe⟩ := q
    have hq : bestAt ≤ qe.created_at := h (qk, qe) (by simp)
    have hlt : ¬ qe.created_at < bestAt := by omega
    simp only [oldestKeyAux, hlt, if_false]
    exact ih best bestAt (fun p hp => h p (by simp [hp]))

/-- `oldestKeyAux` finds the unique strict minimizer of `created_at`. -/
theorem oldestKeyAux_strict {W : Type} (l : List (String × CacheEntry W))
    (k0 : String) (e0 : CacheEntry W) :
    ∀ (best : String) (bestAt : Nat),
      (k0, e0) ∈ l → e0.created_at < bestAt →
      (∀ p ∈ l, ¬ p.1 = k0 → e0.created_at < p.2.created_at) →
      (l.map Prod.fst).Nodup →
      oldestKeyAux best bestAt l = k0 := by
  induction l with
  | nil => intro best bestAt hmem; cases hmem
  | cons q rest ih =>
    intro best bestAt hmem hlt hmin hnd
    obtain ⟨qk, qe⟩ := q
    simp only [List.map_cons, List.nodup_cons] at hnd
    rcases List.mem_cons.mp hmem with hhead | htail
    · have hk0 : k0 = qk := congrArg Prod.fst hhead
      have he0 : e0 = qe := congrArg Prod.snd hhead
      subst hk0
      subst he0
      simp only [oldestKeyAux, hlt, if_pos]
      apply oldestKeyAux_of_le
      intro p hp
      have hpk : ¬ p.1 = k0 := by
        intro h2
        exact hnd.1 (h2 ▸ List.mem_map_of_mem Prod.fst hp)
      exact Nat.le_of_lt (hmin p (by simp [hp]) hpk)
    · have hqk : ¬ qk = k0 := by
        intro h2
        exact hnd.1 (h2 ▸ List.mem_map_of_mem Prod.fst htail)
      have hqlt : e0.created_at < qe.created_at := hmin (qk, qe) (by simp) hqk
      by_cases hb : qe.created_at < bestAt
      · simp only [oldestKeyAux, hb, if_pos]
        exact ih qk qe.created_at htail hqlt
          (fun p hp hpk => hmin p (by simp [hp]) hpk) hnd.2
      · simp only [oldestKeyAux, hb, if_false]
        exact ih best bestAt htail hlt
          (fun p hp hpk => hmin p (by simp [hp]) hpk) hnd.2

/-- Claim C6: `set` on a full cache with a new key evicts exactly the
entry with the smallest `created_at` (creation-order eviction) before
inserting; overwriting an existing key evicts nothing; and concretely
with `max_size = 2`, after `set a`, `set b`, `set c` the entry `a` is
gone while `b` and `c` survive. -/
theorem c6_fifo_eviction (W : Type) :
    (∀ (c : Cache W) (key : String) (v : Option W) (ttl : Option Nat) (now : Nat)
       (e : CacheEntry W),
       lookupKey key c.entries = some e →
       (Cache.set c key v ttl now).evictions = c.evictions ∧
       (∀ k2, ¬ k2 = key →
          lookupKey k2 (Cache.set c key v ttl now).entries = lookupKey k2 c.entries)) ∧
    (∀ (c : Cache W) (key : String) (v : Option W) (ttl : Option Nat) (now : Nat)
       (k0 : String) (e0 : CacheEntry W),
       (c.entries.map Prod.fst).Nodup →
       c.max_size ≤ c.entries.length →
       lookupKey key c.entries = none →
       lookupKey k0 c.entries = some e0 →
       (∀ p ∈ c.entries, ¬ p.1 = k0 → e0.created_at < p.2.created_at) →
       (Cache.set c key v ttl now).evictions = c.evictions + 1 ∧
       lookupKey k0 (Cache.set c key v ttl now).entries = none ∧
       lookupKey key (Cache.set c key v ttl now).entries =
         some (CacheEntry.mk_at v (ttl.getD c.default_ttl) now) ∧
       (∀ k2, ¬ k2 = key → ¬ k2 = k0 →
          lookupKey k2 (Cache.set c key v ttl now).entries = lookupKey k2 c.entries)) ∧
    ((Cache.get (Cache.set (Cache.set (Cache.set (⟨300, 2, [], 0, 0, 0, 0⟩ : Cache Nat)
         "a" (some 1) none 0) "b" (some 2) none 1) "c" (some 3) none 2) "a" 3).1 = none ∧
     (Cache.get (Cache.set (Cache.set (Cache.set (⟨300, 2, [], 0, 0, 0, 0⟩ : Cache Nat)
         "a" (some 1) none 0) "b" (some 2) none 1) "c" (some 3) none 2) "b" 3).1 = some 2 ∧
     (Cache.get (Cache.set (Cache.set (Cache.set (⟨300, 2, [], 0, 0, 0, 0⟩ : Cache Nat)
         "a" (some 1) none 0) "b" (some 2) none 1) "c" (some 3) none 2) "c" 3).1 = some 3 ∧
     (Cache.set (Cache.set (Cache.set (⟨300, 2, [], 0, 0, 0, 0⟩ : Cache Nat)
         "a" (some 1) none 0) "b" (some 2) none 1) "c" (some 3) none 2).evictions = 1) := by
  refine ⟨?_, ?_, by decide⟩
  · intro c key v ttl now e he
    have hnone : (lookupKey key c.entries).isNone = false := by
      simp [he]
    constructor
    · simp [Cache.set, hnone]
    · intro k2 hk2
      simp only [Cache.set, hnone, Bool.false_eq_true, and_false, if_false]
      exact lookupKey_insertKey_ne key k2 _ c.entries hk2
  · intro c key v ttl now k0 e0 hnd hfull habs hmem0 hmin
    have hk0key : ¬ k0 = key := by
      intro h2
      rw [h2] at hmem0
      rw [habs] at hmem0
      cases hmem0
    have hmemp : (k0, e0) ∈ c.entries := lookupKey_some_mem k0 c.entries e0 hmem0
    have hoctrue : (lookupKey key c.entries).isNone = true := by
      simp [habs]
    have hevict :
        Cache.evict_oldest c =
          { c with entries := removeKey k0 c.entries, evictions := c.evictions + 1 } := by
      rcases hE : c.entries with _ | ⟨⟨qk, qe⟩, rest⟩
      · rw [hE] at hmemp
        cases hmemp
      · rw [hE] at hmemp hmin hnd
        simp only [List.map_cons, List.nodup_cons] at hnd
        have holdest : oldestKeyAux qk qe.created_at rest = k0 := by
          rcases List.mem_cons.mp hmemp with hhead | htail
          · have hk0 : k0 = qk := congrArg Prod.fst hhead
            have he0 : e0 = qe := congrArg Prod.snd hhead
            subst hk0
            subst he0
            apply oldestKeyAux_of_le
            intro p hp
            have hpk : ¬ p.1 = k0 := by
              intro h2
              exact hnd.1 (h2 ▸ List.mem_map_of_mem Prod.fst hp)
            exact Nat.le_of_lt (hmin p (by simp [hp]) hpk)
          · have hqk : ¬ qk = k0 := by
              intro h2
              exact hnd.1 (h2 ▸ List.mem_map_of_mem Prod.fst htail)
            have hqlt : e0.created_at < qe.created_at := hmin (qk, qe) (by simp) hqk
            exact oldestKeyAux_strict rest k0 e0 qk qe.created_at htail hqlt
              (fun p hp hpk => hmin p (by simp [hp]) hpk) hnd.2
        simp only [Cache.evict_oldest, hE, holdest]
      -- closing the match on entries
    have hset :
        Cache.set c key v ttl now =
          { c with
              entries := insertKey key (CacheEntry.mk_at v (ttl.getD c.default_ttl) now)
                (removeKey k0 c.entries),
              evictions := c.evictions + 1 } := by
      simp only [Cache.set, hoctrue, and_true, hfull, if_pos, hevict]
    refine ⟨by rw [hset], ?_, ?_, ?_⟩
    · rw [hset]
      have h1 := lookupKey_insertKey_ne key k0
        (CacheEntry.mk_at v (ttl.getD c.default_ttl) now) (removeKey k0 c.entries) hk0key
      rw [h1]
      exact lookupKey_removeKey_self k0 c.entries hnd
    · rw [hset]
      exact lookupKey_insertKey_self key _ _
    · intro k2 hk2key hk2k0
      rw [hset]
      have h1 := lookupKey_insertKey_ne key k2
        (CacheEntry.mk_at v (ttl.getD c.default_ttl) now) (removeKey k0 c.entries) hk2key
      rw [h1]
      exact lookupKey_removeKey_ne k0 k2 c.entries hk2k0

/-- Witness for `c6_fifo_eviction`: in a full two-entry cache, setting a
third key evicts exactly the oldest entry `"a"`, keeps `"b"`, and inserts
`"c"`; overwriting `"b"` evicts nothing. -/
theorem c6_fifo_eviction_witness :
    ((Cache.set (⟨300, 2, [("a", ⟨some 1, 0, 300, 0⟩), ("b", ⟨some 2, 1, 301, 0⟩)],
         0, 0, 0, 0⟩ : Cache Nat) "b" (some 9) none 2).evictions = 0 ∧
     (Cache.set (⟨300, 2, [("a", ⟨some 1, 0, 300, 0⟩), ("b", ⟨some 2, 1, 301, 0⟩)],
         0, 0, 0, 0⟩ : Cache Nat) "c" (some 3) none 2).evictions = 1 ∧
     lookupKey "a" (Cache.set (⟨300, 2, [("a", ⟨some 1, 0, 300, 0⟩), ("b", ⟨some 2, 1, 301, 0⟩)],
         0, 0, 0, 0⟩ : Cache Nat) "c" (some 3) none 2).entries = none ∧
     lookupKey "b" (Cache.set (⟨300, 2, [("a", ⟨some 1, 0, 300, 0⟩), ("b", ⟨some 2, 1, 301, 0⟩)],
         0, 0, 0, 0⟩ : Cache Nat) "c" (some 3) none 2).entries = some ⟨some 2, 1, 301, 0⟩) := by
  refine ⟨?_, ?_, ?_, ?_⟩
  · exact ((c6_fifo_eviction Nat).1 ⟨300, 2, [("a", ⟨some 1, 0, 300, 0⟩), ("b", ⟨some 2, 1, 301, 0⟩)],
      0, 0, 0, 0⟩ "b" (some 9) none 2 ⟨some 2, 1, 301, 0⟩ (by decide)).1
  · exact ((c6_fifo_eviction Nat).2.1 ⟨300, 2, [("a", ⟨some 1, 0, 300, 0⟩), ("b", ⟨some 2, 1, 301, 0⟩)],
      0, 0, 0, 0⟩ "c" (some 3) none 2 "a" ⟨some 1, 0, 300, 0⟩ (by decide) (by decide)
      (by decide) (by decide) (by decide)).1
  · exact ((c6_fifo_eviction Nat).2.1 ⟨300, 2, [("a", ⟨some 1, 0, 300, 0⟩), ("b", ⟨some 2, 1, 301, 0⟩)],
      0, 0, 0, 0⟩ "c" (some 3) none 2 "a" ⟨some 1, 0, 300, 0⟩ (by decide) (by decide)
      (by decide) (by decide) (by decide)).2.1
  · exact ((c6_fifo_eviction Nat).2.1 ⟨300, 2, [("a", ⟨some 1, 0, 300, 0⟩), ("b", ⟨some 2, 1, 301, 0⟩)],
      0, 0, 0, 0⟩ "c" (some 3) none 2 "a" ⟨some 1, 0, 300, 0⟩ (by decide) (by decide)
      (by decide) (by decide) (by decide)).2.2.2 "b" (by decide) (by decide)

/-- Claim C7: the structural query validator accepts a query (returning
it unchanged) exactly when it is non-empty, at most `MAX_QUERY_LENGTH`
characters, contains SELECT and FROM case-insensitively, mentions one of
the two allowed FROM targets, and has balanced square brackets; it raises
a `ValidationError` exactly when one of those checks fails. -/
theorem c7_wiql_validator (q : String) :
    (WiqlValidator.validate q = Except.ok q ↔
       (¬ q = "" ∧ q.length ≤ MAX_QUERY_LENGTH ∧ containsSub q "SELECT" = true ∧
        containsSub q "FROM" = true ∧
        (containsSub q "WORKITEMS" = true ∨ containsSub q "WORKITEMLINKS" = true) ∧
        check_balanced_brackets q.data 0 = true)) ∧
    ((∃ e, WiqlValidator.validate q = Except.error e) ↔
       (q = "" ∨ MAX_QUERY_LENGTH < q.length ∨ containsSub q "SELECT" = false ∨
        containsSub q "FROM" = false ∨
        (containsSub q "WORKITEMS" = false ∧ containsSub q "WORKITEMLINKS" = false) ∨
        check_balanced_brackets q.data 0 = false)) ∧
    (∀ r, WiqlValidator.validate q = Except.ok r → r = q) := by
  unfold WiqlValidator.validate
  split_ifs with h1 h2 h3 h4 h5 h6 <;> simp_all <;> try omega
  intro hw
  rcases h5 with h5a | h5b
  · exact absurd h5a (by simp [hw])
  · exact h5b

/-- Witness for `c7_wiql_validator`: a balanced query with SELECT and an
allowed FROM target is accepted unchanged; the same query with an
unbalanced bracket is rejected. -/
theorem c7_wiql_validator_witness :
    WiqlValidator.validate "SELECT [System.Id] FROM WorkItems" =
      Except.ok "SELECT [System.Id] FROM WorkItems" ∧
    (∃ e, WiqlValidator.validate "SELECT [System.Id FROM WorkItems" = Except.error e) :=
  ⟨(c7_wiql_validator "SELECT [System.Id] FROM WorkItems").1.mpr (by decide),
   (c7_wiql_validator "SELECT [System.Id FROM WorkItems").2.1.mpr (by decide)⟩

/-- `removeKey` is a sublist of the original association list. -/
theorem removeKey_sublist {α : Type} (k : String) (es : List (String × α)) :
    List.Sublist (removeKey k es) es := by
  induction es with
  | nil => simp [removeKey]
  | cons p rest ih =>
    obtain ⟨pk, pv⟩ := p
    by_cases hp : pk = k
    · simp only [removeKey]
      rw [if_pos hp]
      exact List.sublist_cons_self (pk, pv) rest
    · simp only [removeKey, hp, if_false]
      exact List.Sublist.cons₂ (pk, pv) ih

/-- Key uniqueness survives `removeKey`. -/
theorem removeKey_nodup {α : Type} (k : String) (es : List (String × α))
    (h : (es.map Prod.fst).Nodup) : ((removeKey k es).map Prod.fst).Nodup :=
  List.Nodup.sublist (List.Sublist.map Prod.fst (removeKey_sublist k es)) h

/-- With unique keys, `removeKey` equals filtering the key out. -/
theorem removeKey_eq_filter {α : Type} (k : String) (es : List (String × α))
    (h : (es.map Prod.fst).Nodup) :
    removeKey k es = es.filter (fun p => !(p.1 == k)) := by
  induction es with
  | nil => rfl
  | cons p rest ih =>
    obtain ⟨pk, pv⟩ := p
    simp only [List.map_cons, List.nodup_cons] at h
    by_cases hp : pk = k
    · subst hp
      have hrest : rest.filter (fun p => !(p.1 == pk)) = rest := by
        apply List.filter_eq_self.mpr
        intro p hp2
        have hne : ¬ p.1 = pk := by
          intro h2
          exact h.1 (h2 ▸ List.mem_map_of_mem Prod.fst hp2)
        simp [hne]
      simp only [removeKey, if_true]
      simp only [List.filter_cons, beq_self_eq_true, Bool.not_true]
      simp [hrest]
    · simp only [removeKey, hp, if_false, List.filter_cons]
      have hbeq : (!((pk, pv).1 == k)) = true := by
        simp [hp]
      rw [hbeq]
      simp only [if_true]
      rw [ih h.2]

/-- Folding `removeKey` over a list of keys filters all of them out. -/
theorem foldl_removeKey {α : Type} (ks : List String) :
    ∀ (es : List (String × α)), (es.map Prod.fst).Nodup →
      ks.foldl (fun es k => removeKey k es) es =
        es.filter (fun p => !(ks.contains p.1)) := by
  induction ks with
  | nil =>
    intro es h
    simp
  | cons k ks ih =>
    intro es h
    simp only [List.foldl_cons]
    rw [ih (removeKey k es) (removeKey_nodup k es h)]
    rw [removeKey_eq_filter k es h]
    rw [List.filter_filter]
    apply List.filter_congr
    intro p hp
    simp only [List.contains_cons, Bool.not_or]
    rw [Bool.and_comm]

/-- Claim C9: `invalidate_prefix(p)` removes exactly the entries whose key
starts with `p` and returns their count; entries whose key does not start
with `p` survive unchanged, and none of the statistics counters moves. -/
theorem c9_namespace_invalidation (W : Type) (c : Cache W) (pre : String)
    (h : (c.entries.map Prod.fst).Nodup) :
    ( Cache.invalidate_prefix c pre).1 =
      (c.entries.filter (fun p => pyStartsWith p.1 pre)).length ∧
    ( Cache.invalidate_prefix c pre).2.entries =
      c.entries.filter (fun p => !(pyStartsWith p.1 pre)) ∧
    (∀ p ∈ c.entries, pyStartsWith p.1 pre = false →
       p ∈ ( Cache.invalidate_prefix c pre).2.entries) ∧
    ( Cache.invalidate_prefix c pre).2.hits = c.hits ∧
    ( Cache.invalidate_prefix c pre).2.misses = c.misses ∧
    ( Cache.invalidate_prefix c pre).2.evictions = c.evictions ∧
    ( Cache.invalidate_prefix c pre).2.expirations = c.expirations := by
  have hentries :
      ( Cache.invalidate_prefix c pre).2.entries =
        c.entries.filter (fun p => !(pyStartsWith p.1 pre)) := by
    simp only [Cache.invalidate_prefix]
    rw [foldl_removeKey _ c.entries h]
    apply List.filter_congr
    intro p hp
    congr 1
    by_cases hs : pyStartsWith p.1 pre = true
    · have hmem : p.1 ∈ (c.entries.map Prod.fst).filter (fun k => pyStartsWith k pre) := by
        rw [List.mem_filter]
        exact ⟨List.mem_map_of_mem Prod.fst hp, hs⟩
      rw [hs]
      exact List.elem_eq_true_of_mem hmem
    · have hs2 : pyStartsWith p.1 pre = false := by
        cases h2 : pyStartsWith p.1 pre
        · rfl
        · exact absurd h2 hs
      rw [hs2]
      have hnotmem : ¬ p.1 ∈ (c.entries.map Prod.fst).filter (fun k => pyStartsWith k pre) := by
        intro hmem
        rw [List.mem_filter] at hmem
        rw [hmem.2] at hs2
        cases hs2
      cases hcon : List.contains ((c.entries.map Prod.fst).filter (fun k => pyStartsWith k pre)) p.1
      · rfl
      · exact absurd (List.mem_of_elem_eq_true hcon) hnotmem
  refine ⟨?_, hentries, ?_, rfl, rfl, rfl, rfl⟩
  · simp only [Cache.invalidate_prefix]
    rw [List.filter_map]
    rw [List.length_map]
    rfl
  · intro p hp hs
    rw [hentries]
    rw [List.mem_filter]
    exact ⟨hp, by simp [hs]⟩

/-- Witness for `c9_namespace_invalidation`: a mixed-namespace cache of three
keys, two matching the prefix, keeps exactly the non-matching entry and
reports two removals with untouched counters. -/
theorem c9_namespace_invalidation_witness :
    ( Cache.invalidate_prefix (⟨300, 10,
        [("ns1:a", ⟨some 1, 0, 300, 0⟩), ("ns2:b", ⟨some 2, 1, 301, 4⟩),
         ("ns1:c", ⟨some 3, 2, 302, 0⟩)], 5, 6, 7, 8⟩ : Cache Nat) "ns1:").1 = 2 ∧
    ( Cache.invalidate_prefix (⟨300, 10,
        [("ns1:a", ⟨some 1, 0, 300, 0⟩), ("ns2:b", ⟨some 2, 1, 301, 4⟩),
         ("ns1:c", ⟨some 3, 2, 302, 0⟩)], 5, 6, 7, 8⟩ : Cache Nat) "ns1:").2.entries =
      [("ns2:b", ⟨some 2, 1, 301, 4⟩)] ∧
    ( Cache.invalidate_prefix (⟨300, 10,
        [("ns1:a", ⟨some 1, 0, 300, 0⟩), ("ns2:b", ⟨some 2, 1, 301, 4⟩),
         ("ns1:c", ⟨some 3, 2, 302, 0⟩)], 5, 6, 7, 8⟩ : Cache Nat) "ns1:").2.hits = 5 := by
  refine ⟨?_, ?_, ?_⟩
  · have h := (c9_namespace_invalidation Nat ⟨300, 10,
      [("ns1:a", ⟨some 1, 0, 300, 0⟩), ("ns2:b", ⟨some 2, 1, 301, 4⟩),
       ("ns1:c", ⟨some 3, 2, 302, 0⟩)], 5, 6, 7, 8⟩ "ns1:" (by decide)).1
    rw [h]
    decide
  · have h := (c9_namespace_invalidation Nat ⟨300, 10,
      [("ns1:a", ⟨some 1, 0, 300, 0⟩), ("ns2:b", ⟨some 2, 1, 301, 4⟩),
       ("ns1:c", ⟨some 3, 2, 302, 0⟩)], 5, 6, 7, 8⟩ "ns1:" (by decide)).2.1
    rw [h]
    decide
  · exact (c9_namespace_invalidation Nat ⟨300, 10,
      [("ns1:a", ⟨some 1, 0, 300, 0⟩), ("ns2:b", ⟨some 2, 1, 301, 4⟩),
       ("ns1:c", ⟨some 3, 2, 302, 0⟩)], 5, 6, 7, 8⟩ "ns1:" (by decide)).2.2.2.1

/-- Claim C10: a stored `None` is indistinguishable from a miss at the
public interface: after `set(key, None)` and before expiry, `get(key)`
returns `None` exactly as for an absent key (though the hits counter, not
the misses counter, is incremented), and the `cached` decorator therefore
re-invokes its wrapped function. -/
theorem c10_cached_none (W : Type) (c : Cache W) (key : String)
    (t t0 now : Nat) (fres : Option W) (ttl2 : Option Nat) :
    (now < t0 + t →
       (Cache.get (Cache.set c key none (some t) t0) key now).1 = (none : Option W) ∧
       (Cache.get (Cache.set c key none (some t) t0) key now).2.hits =
         (Cache.set c key none (some t) t0).hits + 1 ∧
       (Cache.get (Cache.set c key none (some t) t0) key now).2.misses =
         (Cache.set c key none (some t) t0).misses ∧
       (cachedWrapper (Cache.set c key none (some t) t0) key fres ttl2 now).2.1 = true) ∧
    (∀ key2, lookupKey key2 c.entries = none → (Cache.get c key2 now).1 = none) := by
  constructor
  · intro hlt
    have hlook :
        lookupKey key (Cache.set c key none (some t) t0).entries =
          some (CacheEntry.mk_at none t t0) := by
      simp [Cache.set, lookupKey_insertKey_self]
    have hcond : (CacheEntry.mk_at (none : Option W) t t0).is_expired now = false := by
      simp only [CacheEntry.is_expired, CacheEntry.mk_at, decide_eq_false_iff_not]
      omega
    have hget1 : (Cache.get (Cache.set c key none (some t) t0) key now).1 = (none : Option W) := by
      simp only [Cache.get, hlook, hcond]
      simp [CacheEntry.mk_at]
    refine ⟨hget1, ?_, ?_, ?_⟩
    · simp only [Cache.get, hlook, hcond]
      simp
    · simp only [Cache.get, hlook, hcond]
      simp
    · rcases hg : Cache.get (Cache.set c key none (some t) t0) key now with ⟨v1, c1⟩
      have hv1 : v1 = none := by
        have h2 := congrArg Prod.fst hg
        rw [hget1] at h2
        exact h2.symm
      subst hv1
      simp [cachedWrapper, hg]
  · intro key2 h2
    simp [Cache.get, h2]

/-- Witness for `c10_cached_none`: storing `None` under `"k"` at time 0
with TTL 10, a `get` at time 5 returns `None` with a hit, the `cached`
wrapper re-invokes its function, and an absent key also returns `None`. -/
theorem c10_cached_none_witness :
    (Cache.get (Cache.set (⟨300, 10, [], 0, 0, 0, 0⟩ : Cache Nat) "k" none (some 10) 0) "k" 5).1 =
      none ∧
    (Cache.get (Cache.set (⟨300, 10, [], 0, 0, 0, 0⟩ : Cache Nat) "k" none (some 10) 0) "k" 5).2.hits = 1 ∧
    (cachedWrapper (Cache.set (⟨300, 10, [], 0, 0, 0, 0⟩ : Cache Nat) "k" none (some 10) 0)
        "k" (some 42) none 5).2.1 = true ∧
    (Cache.get (⟨300, 10, [], 0, 0, 0, 0⟩ : Cache Nat) "absent" 5).1 = none := by
  refine ⟨?_, ?_, ?_, ?_⟩
  · exact ((c10_cached_none Nat ⟨300, 10, [], 0, 0, 0, 0⟩ "k" 10 0 5 (some 42) none).1
      (by decide)).1
  · exact ((c10_cached_none Nat ⟨300, 10, [], 0, 0, 0, 0⟩ "k" 10 0 5 (some 42) none).1
      (by decide)).2.1
  · exact ((c10_cached_none Nat ⟨300, 10, [], 0, 0, 0, 0⟩ "k" 10 0 5 (some 42) none).1
      (by decide)).2.2.2
  · exact (c10_cached_none Nat ⟨300, 10, [], 0, 0, 0, 0⟩ "k" 10 0 5 (some 42) none).2
      "absent" (by decide)

/-- Appending to the same list on the left is injective. -/
theorem list_append_right_inj {α : Type} (dp da db : List α) (h2 : dp ++ da = dp ++ db) :
    da = db := by
  induction dp with
  | nil => simpa using h2
  | cons x xs ih =>
    simp only [List.cons_append, List.cons.injEq] at h2
    exact ih h2.2

/-- Appending to the same string on the left is injective. -/
theorem string_append_right_inj (pre a b : String) (h : pre ++ a = pre ++ b) : a = b := by
  rcases pre with ⟨dp⟩
  rcases a with ⟨da⟩
  rcases b with ⟨db⟩
  have h2 : dp ++ da = dp ++ db := congrArg String.data h
  rw [list_append_right_inj dp da db h2]

/-- Behaviour of one successful `get_sprint_service` call: the resolved
tenant is memoized to the returned handle; the work-item map is
untouched; a fresh tenant constructs `mkSprintService` and counts a
creation; a memoized tenant returns the stored handle and only bumps the
hit counter. -/
theorem get_sprint_service_spec (m : ServiceManager) (p : String) (s : Service)
    (m1 : ServiceManager) (hp : ¬ p = "")
    (h : get_sprint_service m (some p) = Except.ok (s, m1)) :
    lookupKey (pyStrip p) m1.sprint_services = some s ∧
    m1.workitem_services = m.workitem_services ∧
    (lookupKey (pyStrip p) m.sprint_services = none →
       s = mkSprintService (pyStrip p) ∧
       m1.service_creation_count = m.service_creation_count + 1) ∧
    (∀ s0, lookupKey (pyStrip p) m.sprint_services = some s0 →
       s = s0 ∧ m1 = { m with cache_hit_count := m.cache_hit_count + 1 }) := by
  rcases hL : lookupKey (pyStrip p) m.sprint_services with _ | s0
  · simp only [get_sprint_service, resolve_project, hp, if_false, hL,
      Except.ok.injEq, Prod.mk.injEq] at h
    obtain ⟨hs, hm⟩ := h
    subst hs
    subst hm
    refine ⟨by simp [lookupKey_insertKey_self], rfl, fun _ => ⟨rfl, rfl⟩, ?_⟩
    intro s0 h0
    exact absurd h0 (by simp)
  · simp only [get_sprint_service, resolve_project, hp, if_false, hL,
      Except.ok.injEq, Prod.mk.injEq] at h
    obtain ⟨hs, hm⟩ := h
    subst hs
    subst hm
    refine ⟨by simpa using hL, rfl, ?_, ?_⟩
    · intro habs
      exact absurd habs (by simp)
    · intro s1 h1
      injection h1 with h1
      exact ⟨h1, rfl⟩

/-- Mirror of `get_sprint_service_spec` for `get_workitem_service`. -/
theorem get_workitem_service_spec (m : ServiceManager) (p : String) (s : Service)
    (m1 : ServiceManager) (hp : ¬ p = "")
    (h : get_workitem_service m (some p) = Except.ok (s, m1)) :
    lookupKey (pyStrip p) m1.workitem_services = some s ∧
    m1.sprint_services = m.sprint_services ∧
    (lookupKey (pyStrip p) m.workitem_services = none →
       s = mkWorkItemService (pyStrip p) ∧
       m1.service_creation_count = m.service_creation_count + 1) ∧
    (∀ s0, lookupKey (pyStrip p) m.workitem_services = some s0 →
       s = s0 ∧ m1 = { m with cache_hit_count := m.cache_hit_count + 1 }) := by
  rcases hL : lookupKey (pyStrip p) m.workitem_services with _ | s0
  · simp only [get_workitem_service, resolve_project, hp, if_false, hL,
      Except.ok.injEq, Prod.mk.injEq] at h
    obtain ⟨hs, hm⟩ := h
    subst hs
    subst hm
    refine ⟨by simp [lookupKey_insertKey_self], rfl, fun _ => ⟨rfl, rfl⟩, ?_⟩
    intro s0 h0
    exact absurd h0 (by simp)
  · simp only [get_workitem_service, resolve_project, hp, if_false, hL,
      Except.ok.injEq, Prod.mk.injEq] at h
    obtain ⟨hs, hm⟩ := h
    subst hs
    subst hm
    refine ⟨by simpa using hL, rfl, ?_, ?_⟩
    · intro habs
      exact absurd habs (by simp)
    · intro s1 h1
      injection h1 with h1
      exact ⟨h1, rfl⟩

/-- A `get_workitem_service` call never touches the sprint map. -/
theorem get_workitem_sprints_unchanged (m : ServiceManager) (pr : Option String)
    (s1 : Service) (m1 : ServiceManager)
    (h : get_workitem_service m pr = Except.ok (s1, m1)) :
    m1.sprint_services = m.sprint_services := by
  rcases hr : resolve_project m pr with e | p2
  · simp [get_workitem_service, hr] at h
  · rcases hL : lookupKey p2 m.workitem_services with _ | s0
    · simp only [get_workitem_service, hr, hL, Except.ok.injEq, Prod.mk.injEq] at h
      rw [h.2.symm]
    · simp only [get_workitem_service, hr, hL, Except.ok.injEq, Prod.mk.injEq] at h
      rw [h.2.symm]

/-- Claim C8: the registry memoizes one service handle per
(kind, tenant): a first request constructs a handle bound to the cache
namespace `"{kind}:{tenant}"` and counts a creation; a repeated request
for the same pair returns the identical memoized handle with only the
hit counter bumped; requests for distinct tenants return distinct
handles with distinct namespaces; and requests of the other kind leave
the memoized handle untouched. -/
theorem c8_registry_memoization :
    (∀ (m : ServiceManager) (p : String) (s : Service) (m1 : ServiceManager),
       ¬ p = "" → get_sprint_service m (some p) = Except.ok (s, m1) →
       (get_sprint_service m1 (some p) =
          Except.ok (s, { m1 with cache_hit_count := m1.cache_hit_count + 1 })) ∧
       (lookupKey (pyStrip p) m.sprint_services = none →
          s = mkSprintService (pyStrip p) ∧
          s.cache_namespace = "sprints:" ++ pyStrip p ∧
          m1.service_creation_count = m.service_creation_count + 1) ∧
       (∀ (q : String) (s2 : Service) (m2 : ServiceManager),
          ¬ q = "" → get_sprint_service m1 (some q) = Except.ok (s2, m2) →
          lookupKey (pyStrip p) m.sprint_services = none →
          lookupKey (pyStrip q) m1.sprint_services = none →
          ¬ s = s2 ∧ ¬ s.cache_namespace = s2.cache_namespace) ∧
       (∀ (pr : Option String) (s3 : Service) (m3 : ServiceManager),
          get_workitem_service m1 pr = Except.ok (s3, m3) →
          lookupKey (pyStrip p) m3.sprint_services = some s)) ∧
    (∀ (m : ServiceManager) (p : String) (s : Service) (m1 : ServiceManager),
       ¬ p = "" → get_workitem_service m (some p) = Except.ok (s, m1) →
       (get_workitem_service m1 (some p) =
          Except.ok (s, { m1 with cache_hit_count := m1.cache_hit_count + 1 })) ∧
       (lookupKey (pyStrip p) m.workitem_services = none →
          s = mkWorkItemService (pyStrip p) ∧
          s.cache_namespace = "workitems:" ++ pyStrip p)) := by
  constructor
  · intro m p s m1 hp h
    have spec := get_sprint_service_spec m p s m1 hp h
    refine ⟨?_, ?_, ?_, ?_⟩
    · simp only [get_sprint_service, resolve_project, hp, if_false, spec.1]
    · intro habs
      obtain ⟨hs, hc⟩ := spec.2.2.1 habs
      exact ⟨hs, by rw [hs]; rfl, hc⟩
    · intro q s2 m2 hq h2 hpnone hqnone
      have spec2 := get_sprint_service_spec m1 q s2 m2 hq h2
      have hsns : s.cache_namespace = "sprints:" ++ pyStrip p := by
        rw [(spec.2.2.1 hpnone).1]; rfl
      have hs2ns : s2.cache_namespace = "sprints:" ++ pyStrip q := by
        rw [(spec2.2.2.1 hqnone).1]; rfl
      have hpq : ¬ pyStrip p = pyStrip q := by
        intro hsame
        rw [hsame.symm] at hqnone
        rw [spec.1] at hqnone
        cases hqnone
      have hns : ¬ s.cache_namespace = s2.cache_namespace := by
        intro heq
        rw [hsns, hs2ns] at heq
        exact hpq (string_append_right_inj "sprints:" (pyStrip p) (pyStrip q) heq)
      exact ⟨fun heq => hns (congrArg Service.cache_namespace heq), hns⟩
    · intro pr s3 m3 h3
      rw [get_workitem_sprints_unchanged m1 pr s3 m3 h3]
      exact spec.1
  · intro m p s m1 hp h
    have spec := get_workitem_service_spec m p s m1 hp h
    refine ⟨?_, ?_⟩
    · simp only [get_workitem_service, resolve_project, hp, if_false, spec.1]
    · intro habs
      obtain ⟨hs, _⟩ := spec.2.2.1 habs
      exact ⟨hs, by rw [hs]; rfl⟩

/-- Witness for `c8_registry_memoization`: after loading `"ProjectA"`,
requesting it again returns the identical memoized handle with only the
hit counter bumped, and `"ProjectB"` yields a distinct handle with a
distinct cache namespace. -/
theorem c8_registry_memoization_witness :
    get_sprint_service (⟨none, [("ProjectA", mkSprintService "ProjectA")], [], 1, 0⟩ :
        ServiceManager) (some "ProjectA") =
      Except.ok (mkSprintService "ProjectA",
        ⟨none, [("ProjectA", mkSprintService "ProjectA")], [], 1, 1⟩) ∧
    ¬ mkSprintService "ProjectA" = mkSprintService "ProjectB" ∧
    ¬ (mkSprintService "ProjectA").cache_namespace =
        (mkSprintService "ProjectB").cache_namespace := by
  refine ⟨?_, ?_, ?_⟩
  · exact (c8_registry_memoization.1 ⟨none, [], [], 0, 0⟩ "ProjectA"
      (mkSprintService "ProjectA")
      ⟨none, [("ProjectA", mkSprintService "ProjectA")], [], 1, 0⟩
      (by decide) (by decide)).1
  · exact ((c8_registry_memoization.1 ⟨none, [], [], 0, 0⟩ "ProjectA"
      (mkSprintService "ProjectA")
      ⟨none, [("ProjectA", mkSprintService "ProjectA")], [], 1, 0⟩
      (by decide) (by decide)).2.2.1 "ProjectB" (mkSprintService "ProjectB")
      ⟨none, [("ProjectA", mkSprintService "ProjectA"),
              ("ProjectB", mkSprintService "ProjectB")], [], 2, 0⟩
      (by decide) (by decide) (by decide) (by decide)).1
  · exact ((c8_registry_memoization.1 ⟨none, [], [], 0, 0⟩ "ProjectA"
      (mkSprintService "ProjectA")
      ⟨none, [("ProjectA", mkSprintService "ProjectA")], [], 1, 0⟩
      (by decide) (by decide)).2.2.1 "ProjectB" (mkSprintService "ProjectB")
      ⟨none, [("ProjectA", mkSprintService "ProjectA"),
              ("ProjectB", mkSprintService "ProjectB")], [], 2, 0⟩
      (by decide) (by decide) (by decide) (by decide)).2

end ADOBridge
